import Mathlib

/-!
Shallow embedding of the visibility observation scheduler from
`src/scenarios/IntersectionObserverExample.tsx`.

Modelling choices:
* Element handles are `Nat` (opaque identities).
* Visibility callbacks are identified by a `Nat` identity token
  (the source compares callbacks with `===`, i.e. by identity);
  an invocation of a callback is recorded as an event
  `(node, callbackId, isIntersecting)` rather than executed.
* The JS `Map` (`observedNodes`) is an insertion-ordered association
  list, matching JS `Map` iteration order.
* The browser `IntersectionObserver` is modelled by its observed-target
  set (`sensorObserved`, a duplicate-free insertion-ordered list:
  `observe` on an already observed target is a no-op, as in the DOM
  API) together with the flag `observerLive` (`observerRef.current !== null`).
* `tempNodes` is the pending queue, in registration (FIFO) order.
* A thrown `Error` is `Except.error`.
-/

namespace VirtScroll

/-- Per-target options stored in `observedNodes` (and `tempNodes`):
the callback identity and the `stopObservingOnceVisible` flag. -/
structure NodeOptions where
  visibilityCallback : Nat
  stopObservingOnceVisible : Bool
deriving DecidableEq, Repr

/-- The `observedNodes` JS `Map`, as an insertion-ordered association list. -/
abbrev Registry := List (Nat × NodeOptions)

/-- `Map.get`: first (and, under the map invariant, only) binding of a key. -/
def mapGet : Registry → Nat → Option NodeOptions
  | [], _ => none
  | e :: rest, k => if e.1 = k then some e.2 else mapGet rest k

/-- `Map.has`. -/
def mapHas (m : Registry) (k : Nat) : Bool :=
  (mapGet m k).isSome

/-- `Map.set`: update in place if the key is present (keeping its position,
as JS `Map` does), otherwise append at the end. -/
def mapSet : Registry → Nat → NodeOptions → Registry
  | [], k, v => [(k, v)]
  | e :: rest, k, v => if e.1 = k then (k, v) :: rest else e :: mapSet rest k v

/-- `Map.delete`: remove the binding of the key, if any. -/
def mapDelete : Registry → Nat → Registry
  | [], _ => []
  | e :: rest, k => if e.1 = k then rest else e :: mapDelete rest k

/-- `IntersectionObserver.observe`: add a target to the observed set
(no-op when already observed, as in the DOM API). -/
def observeNode (l : List Nat) (n : Nat) : List Nat :=
  if n ∈ l then l else l ++ [n]

/-- The scheduler state owned by one `IntersectionObserverProvider` instance. -/
structure SchedulerState where
  /-- `observerRef.current !== null` -/
  observerLive : Bool
  /-- targets currently observed by the underlying sensor -/
  sensorObserved : List Nat
  /-- the `observedNodes` map (the Target Registry) -/
  observedNodes : Registry
  /-- the `tempNodes` array (the Pending Queue), FIFO -/
  tempNodes : Registry
deriving DecidableEq, Repr

/-- The provider's initial state: no observer, empty registry and queue. -/
def initState : SchedulerState :=
  { observerLive := false, sensorObserved := [], observedNodes := [], tempNodes := [] }

/-- The `for (const [observedNode, observedNodeOptions] of observedNodes)` loop:
node of the first entry whose `visibilityCallback` is identical to `cb`. -/
def findFirstByCallback : Registry → Nat → Option Nat
  | [], _ => none
  | e :: rest, cb =>
      if e.2.visibilityCallback = cb then some e.1 else findFirstByCallback rest cb

/-- Removal performed by that loop: delete the first entry whose callback
matches, keep everything else, stop after the first match (`break`). -/
def removeFirstByCallback : Registry → Nat → Registry
  | [], _ => []
  | e :: rest, cb =>
      if e.2.visibilityCallback = cb then rest else e :: removeFirstByCallback rest cb

/-- `registerObserver(node, visibilityCallback, stopObservingOnceVisible)`:
- non-null node: no-op if already in `observedNodes`; queue into `tempNodes`
  if the observer is not live; otherwise observe and insert;
- null node: remove the first entry whose callback matches (identity),
  unobserving it when the observer is live (`observerRef.current?.unobserve`). -/
def registerObserver (s : SchedulerState) (node : Option Nat) (cb : Nat)
    (stop : Bool) : SchedulerState :=
  match node with
  | some n =>
      if mapHas s.observedNodes n then s
      else if s.observerLive then
        { s with sensorObserved := observeNode s.sensorObserved n,
                 observedNodes := mapSet s.observedNodes n ⟨cb, stop⟩ }
      else
        { s with tempNodes := s.tempNodes ++ [(n, ⟨cb, stop⟩)] }
  | none =>
      match findFirstByCallback s.observedNodes cb with
      | some n =>
          { s with
              sensorObserved :=
                if s.observerLive then s.sensorObserved.erase n else s.sensorObserved,
              observedNodes := removeFirstByCallback s.observedNodes cb }
      | none => s

/-- The `tempNodes.forEach` flush at sensor creation: observe each queued
node and move it into `observedNodes`, in FIFO order. -/
def flushList (s : SchedulerState) : Registry → SchedulerState
  | [] => s
  | e :: rest =>
      flushList
        { s with sensorObserved := observeNode s.sensorObserved e.1,
                 observedNodes := mapSet s.observedNodes e.1 e.2 } rest

/-- `window.getComputedStyle(node)`: the three overflow properties the
source inspects. -/
structure ComputedStyle where
  overflow : String
  overflowY : String
  overflowX : String
deriving DecidableEq, Repr

/-- Value of a digit string (helper for `parseFloat`). -/
def digitsVal (cs : List Char) : Nat :=
  cs.foldl (fun a c => a * 10 + (c.toNat - 48)) 0

/-- Model of JS `parseFloat` on the CSS-margin tokens the source feeds it:
optional sign, integer digits, optional fraction, trailing junk (units such
as `px`/`%`) ignored; `none` is `NaN` (no digits at all). The returned
integer is the parsed value scaled by `10 ^ (number of fraction digits)`;
the scaling is positive, so the result has the same sign and zero-ness as
the parsed value, which is all the source ever uses (comparison with `0`). -/
def parseFloatChars (cs0 : List Char) : Option Int :=
  let cs := cs0.dropWhile (fun c => c = ' ')
  let signed := match cs with
    | '-' :: rest => (true, rest)
    | '+' :: rest => (false, rest)
    | _ => (false, cs)
  let intPart := signed.2.takeWhile Char.isDigit
  let after := signed.2.dropWhile Char.isDigit
  let fracPart := match after with
    | '.' :: r => r.takeWhile Char.isDigit
    | _ => []
  if intPart.isEmpty ∧ fracPart.isEmpty then none
  else
    let mag : Nat := digitsVal intPart * 10 ^ fracPart.length + digitsVal fracPart
    some (if signed.1 then -(mag : Int) else (mag : Int))

/-- JS `parseFloat` on a string. -/
def parseFloat (str : String) : Option Int :=
  parseFloatChars str.data

/-- JS `String.prototype.split(" ")` on the character list: split at every
single space, keeping empty segments (`"a  b".split(" ") = ["a","","b"]`,
`"".split(" ") = [""]`). -/
def splitOnSpace : List Char → List (List Char)
  | [] => [[]]
  | c :: rest =>
      let r := splitOnSpace rest
      if c = ' ' then [] :: r
      else (c :: r.headD []) :: r.tail

/-- `rootMargin && rootMargin.split(" ").some((value) => parseFloat(value) > 0)`:
JS truthiness of the (optional) string, then any space-separated token
parsing to a positive number (`NaN > 0` is false). -/
def hasPositiveMarginValue (rm : Option String) : Bool :=
  match rm with
  | none => false
  | some s =>
      if s = "" then false
      else (splitOnSpace s.data).any fun v =>
        match parseFloatChars v with
        | some q => decide (0 < q)
        | none => false

/-- `rootRef` called with a non-null node: validate the overflow contract,
then construct the observer (fresh, so its observed set starts empty) and
flush the pending queue. A throw is `Except.error`. -/
def attachRoot (rm : Option String) (style : ComputedStyle)
    (s : SchedulerState) : Except String SchedulerState :=
  if hasPositiveMarginValue rm ∧ style.overflow ≠ "auto" ∧
      style.overflowY ≠ "auto" ∧ style.overflowX ≠ "auto" then
    Except.error
      "The root element should have CSS overflow: auto for positive rootMargin values to work correctly."
  else
    Except.ok
      (let s1 := { s with observerLive := true, sensorObserved := [] }
       let s2 := flushList s1 s1.tempNodes
       { s2 with tempNodes := [] })

/-- `rootRef` called with null: `observerRef.current?.disconnect()` and
clearing of the observer reference. Registry and queue are untouched. -/
def detachRoot (s : SchedulerState) : SchedulerState :=
  { s with observerLive := false, sensorObserved := [] }

/-- A recorded callback invocation: (node, callback identity, isIntersecting). -/
abbrev VisEvent := Nat × Nat × Bool

/-- The observer tick callback: `entries.forEach` — resolve each entry's
target in `observedNodes`; if absent skip; otherwise invoke the callback
with `isIntersecting`, and if intersecting and one-shot, unobserve and
delete the target. Returns the final state and the invocation events in
chronological order. -/
def runTick (s : SchedulerState) : List (Nat × Bool) → SchedulerState × List VisEvent
  | [] => (s, [])
  | e :: rest =>
      match mapGet s.observedNodes e.1 with
      | none => runTick s rest
      | some opts =>
          let s1 :=
            if e.2 && opts.stopObservingOnceVisible then
              { s with
                  sensorObserved :=
                    if s.observerLive then s.sensorObserved.erase e.1 else s.sensorObserved,
                  observedNodes := mapDelete s.observedNodes e.1 }
            else s
          let out := runTick s1 rest
          (out.1, (e.1, opts.visibilityCallback, e.2) :: out.2)

/-- A sequence of sensor ticks, events concatenated in order. -/
def runTicks (s : SchedulerState) : List (List (Nat × Bool)) → SchedulerState × List VisEvent
  | [] => (s, [])
  | t :: ts =>
      let o := runTick s t
      let o2 := runTicks o.1 ts
      (o2.1, o.2 ++ o2.2)

/-- The operations a host can drive the scheduler with. -/
inductive SchedOp where
  | reg (node : Option Nat) (cb : Nat) (stop : Bool)
  | attach (rm : Option String) (style : ComputedStyle)
  | detach
  | tick (entries : List (Nat × Bool))

/-- One operation step. A failed attach leaves the state unchanged (the
throw happens before the observer is constructed); ticks are delivered by
the sensor, so they occur only while the observer is live. -/
def applyOp (s : SchedulerState) : SchedOp → SchedulerState
  | SchedOp.reg node cb stop => registerObserver s node cb stop
  | SchedOp.attach rm style =>
      match attachRoot rm style s with
      | Except.ok s1 => s1
      | Except.error _ => s
  | SchedOp.detach => detachRoot s
  | SchedOp.tick es => if s.observerLive then (runTick s es).1 else s

/-- State after a sequence of operations from the initial state. -/
def runOps (ops : List SchedOp) : SchedulerState :=
  ops.foldl applyOp initState

/-- The `isInitiallyVisible` check-and-decrement block of
`useIntersectionObserver`, executed on every render of the consumer:
`ref` is `isInitiallyVisible.current` (`none` = `undefined`), `counter`
is `context.initiallyVisibleElements`. Returns the new ref value and the
new counter. -/
def evalClaim (ref : Option Bool) (counter : Nat) : Option Bool × Nat :=
  if ref = none ∧ 0 < counter then (some true, counter - 1)
  else (some false, counter)

/-- The `observeRef` callback of `useIntersectionObserver`: skip
registration entirely when the consumer claimed initial visibility and is
one-shot; otherwise forward to `registerObserver`. -/
def observeRef (ref : Option Bool) (stop : Bool) (s : SchedulerState)
    (node : Option Nat) (cb : Nat) : SchedulerState :=
  if ref = some true ∧ stop then s
  else registerObserver s node cb stop

end VirtScroll

/-! ### Association-list (JS `Map`) lemmas -/

namespace VirtScroll

theorem mapGet_mapSet (m : Registry) (k n : Nat) (v : NodeOptions) :
    mapGet (mapSet m k v) n = if k = n then some v else mapGet m n := by
  induction m with
  | nil => simp [mapSet, mapGet]
  | cons e rest ih =>
      simp only [mapSet]
      by_cases hek : e.1 = k
      · rw [if_pos hek]
        by_cases hkn : k = n
        · simp [mapGet, hkn]
        · have hen : ¬ e.1 = n := by rw [hek]; exact hkn
          simp [mapGet, hkn, hen]
      · rw [if_neg hek]
        by_cases hen : e.1 = n
        · have hkn : ¬ k = n := by rw [← hen]; exact fun hh => hek hh.symm
          simp [mapGet, hen, hkn]
        · simp [mapGet, hen, ih]

theorem mapGet_eq_none_iff (m : Registry) (n : Nat) :
    mapGet m n = none ↔ n ∉ m.map Prod.fst := by
  induction m with
  | nil => simp [mapGet]
  | cons e rest ih =>
      simp only [mapGet, List.map_cons, List.mem_cons]
      by_cases h : e.1 = n
      · simp [h]
      · rw [if_neg h, ih]
        constructor
        · intro hnm hor
          rcases hor with h1 | h2
          · exact h h1.symm
          · exact hnm h2
        · exact fun hall hmem => hall (Or.inr hmem)

theorem mapGet_mapDelete_ne (m : Registry) (k n : Nat) (h : n ≠ k) :
    mapGet (mapDelete m k) n = mapGet m n := by
  induction m with
  | nil => simp [mapDelete]
  | cons e rest ih =>
      simp only [mapDelete]
      by_cases hek : e.1 = k
      · rw [if_pos hek]
        have hen : ¬ e.1 = n := by rw [hek]; exact fun hh => h hh.symm
        simp only [mapGet, if_neg hen]
      · rw [if_neg hek]
        by_cases hen : e.1 = n
        · simp only [mapGet, if_pos hen]
        · simp only [mapGet, if_neg hen, ih]

theorem mapDelete_sublist (m : Registry) (k : Nat) :
    List.Sublist (mapDelete m k) m := by
  induction m with
  | nil => simp [mapDelete]
  | cons e rest ih =>
      simp only [mapDelete]
      by_cases hek : e.1 = k
      · rw [if_pos hek]
        exact List.sublist_cons_of_sublist e (List.Sublist.refl rest)
      · rw [if_neg hek]
        exact List.Sublist.cons₂ e ih

theorem nodupKeys_mapDelete (m : Registry) (k : Nat)
    (h : (m.map Prod.fst).Nodup) : ((mapDelete m k).map Prod.fst).Nodup :=
  List.Nodup.sublist (List.Sublist.map Prod.fst (mapDelete_sublist m k)) h

theorem mapGet_mapDelete_self (m : Registry) (k : Nat)
    (h : (m.map Prod.fst).Nodup) : mapGet (mapDelete m k) k = none := by
  induction m with
  | nil => simp [mapDelete, mapGet]
  | cons e rest ih =>
      rw [List.map_cons, List.nodup_cons] at h
      simp only [mapDelete]
      by_cases hek : e.1 = k
      · rw [if_pos hek]
        exact (mapGet_eq_none_iff rest k).mpr (hek ▸ h.1)
      · rw [if_neg hek]
        simp [mapGet, hek, ih h.2]

theorem mapSet_of_not_has (m : Registry) (k : Nat) (v : NodeOptions)
    (h : mapGet m k = none) : mapSet m k v = m ++ [(k, v)] := by
  induction m with
  | nil => simp [mapSet]
  | cons e rest ih =>
      simp only [mapSet]
      by_cases hek : e.1 = k
      · rw [mapGet, if_pos hek] at h
        exact absurd h (by simp)
      · rw [mapGet, if_neg hek] at h
        rw [if_neg hek, ih h]
        simp

theorem mem_keys_mapSet (m : Registry) (k : Nat) (v : NodeOptions) (a : Nat) :
    a ∈ (mapSet m k v).map Prod.fst ↔ a = k ∨ a ∈ m.map Prod.fst := by
  induction m with
  | nil => simp [mapSet]
  | cons e rest ih =>
      simp only [mapSet]
      by_cases hek : e.1 = k
      · rw [if_pos hek]
        simp only [List.map_cons, List.mem_cons]
        rw [hek]
        tauto
      · rw [if_neg hek]
        simp only [List.map_cons, List.mem_cons, ih]
        tauto

theorem nodupKeys_mapSet (m : Registry) (k : Nat) (v : NodeOptions)
    (h : (m.map Prod.fst).Nodup) : ((mapSet m k v).map Prod.fst).Nodup := by
  induction m with
  | nil => simp [mapSet]
  | cons e rest ih =>
      rw [List.map_cons, List.nodup_cons] at h
      simp only [mapSet]
      by_cases hek : e.1 = k
      · rw [if_pos hek, List.map_cons, List.nodup_cons]
        exact ⟨hek ▸ h.1, h.2⟩
      · rw [if_neg hek, List.map_cons, List.nodup_cons]
        refine ⟨?_, ih h.2⟩
        intro hmem
        rcases (mem_keys_mapSet rest k v e.1).mp hmem with h1 | h2
        · exact hek h1
        · exact h.1 h2

theorem filter_key_of_mapGet (m : Registry) (n : Nat) (v : NodeOptions)
    (hnd : (m.map Prod.fst).Nodup) (hget : mapGet m n = some v) :
    m.filter (fun e => decide (e.1 = n)) = [(n, v)] := by
  induction m with
  | nil => simp [mapGet] at hget
  | cons e rest ih =>
      rw [List.map_cons, List.nodup_cons] at hnd
      by_cases hen : e.1 = n
      · rw [mapGet, if_pos hen] at hget
        have hrest : rest.filter (fun e => decide (e.1 = n)) = [] := by
          rw [List.filter_eq_nil_iff]
          intro a ha hdec
          have : a.1 = n := by simpa using hdec
          exact hnd.1 (by
            rw [hen, ← this]
            exact List.mem_map_of_mem Prod.fst ha)
        have hcons : e = (n, v) := by
          obtain ⟨e1, e2⟩ := e
          have h1 : e1 = n := hen
          have h2 : e2 = v := by injection hget
          rw [h1, h2]
        rw [List.filter_cons_of_pos (by simpa using hen), hrest, hcons]
      · rw [mapGet, if_neg hen] at hget
        rw [List.filter_cons_of_neg (by simpa using hen)]
        exact ih hnd.2 hget

end VirtScroll

/-! ### Sensor observed-set lemmas -/

namespace VirtScroll

theorem mem_observeNode_self (l : List Nat) (n : Nat) : n ∈ observeNode l n := by
  by_cases h : n ∈ l <;> simp [observeNode, h]

theorem mem_observeNode_of_mem (l : List Nat) (n m : Nat) (h : m ∈ l) :
    m ∈ observeNode l n := by
  by_cases hn : n ∈ l <;> simp [observeNode, hn, h]

theorem observeNode_nodup (l : List Nat) (n : Nat) (h : l.Nodup) :
    (observeNode l n).Nodup := by
  by_cases hn : n ∈ l
  · simpa [observeNode, hn] using h
  · simp [observeNode, hn, List.nodup_append, h, hn]

theorem count_observeNode_self (l : List Nat) (n : Nat) (h : n ∉ l) :
    (observeNode l n).count n = 1 := by
  simp [observeNode, h, List.count_eq_zero_of_not_mem h]

/-! ### Unregister-by-callback loop lemmas -/

theorem findFirstByCallback_append_cons (l1 l2 : Registry) (n cb : Nat)
    (opts : NodeOptions) (hcb : opts.visibilityCallback = cb)
    (hl1 : ∀ e ∈ l1, e.2.visibilityCallback ≠ cb) :
    findFirstByCallback (l1 ++ (n, opts) :: l2) cb = some n := by
  induction l1 with
  | nil => simp [findFirstByCallback, hcb]
  | cons e rest ih =>
      have hne : ¬ e.2.visibilityCallback = cb := hl1 e (by simp)
      simp only [List.cons_append, findFirstByCallback, if_neg hne]
      exact ih fun a ha => hl1 a (by simp [ha])

theorem removeFirstByCallback_append_cons (l1 l2 : Registry) (n cb : Nat)
    (opts : NodeOptions) (hcb : opts.visibilityCallback = cb)
    (hl1 : ∀ e ∈ l1, e.2.visibilityCallback ≠ cb) :
    removeFirstByCallback (l1 ++ (n, opts) :: l2) cb = l1 ++ l2 := by
  induction l1 with
  | nil => simp [removeFirstByCallback, hcb]
  | cons e rest ih =>
      have hne : ¬ e.2.visibilityCallback = cb := hl1 e (by simp)
      simp only [List.cons_append, removeFirstByCallback, if_neg hne]
      show e :: removeFirstByCallback (rest ++ (n, opts) :: l2) cb = e :: (rest ++ l2)
      rw [ih fun a ha => hl1 a (by simp [ha])]

theorem findFirstByCallback_eq_none (m : Registry) (cb : Nat)
    (h : ∀ e ∈ m, e.2.visibilityCallback ≠ cb) :
    findFirstByCallback m cb = none := by
  induction m with
  | nil => rfl
  | cons e rest ih =>
      have hne : ¬ e.2.visibilityCallback = cb := h e (by simp)
      simp only [findFirstByCallback, if_neg hne]
      exact ih fun a ha => h a (by simp [ha])

/-! ### Pending-queue flush lemmas -/

theorem flushList_observerLive (q : Registry) (s : SchedulerState) :
    (flushList s q).observerLive = s.observerLive := by
  induction q generalizing s with
  | nil => rfl
  | cons e rest ih => simp [flushList, ih]

theorem flushList_tempNodes (q : Registry) (s : SchedulerState) :
    (flushList s q).tempNodes = s.tempNodes := by
  induction q generalizing s with
  | nil => rfl
  | cons e rest ih => simp [flushList, ih]

theorem flushList_mapGet (q : Registry) (s : SchedulerState) (n : Nat) :
    mapGet (flushList s q).observedNodes n =
      match (q.filter fun e => decide (e.1 = n)).getLast? with
      | some e => some e.2
      | none => mapGet s.observedNodes n := by
  induction q generalizing s with
  | nil => simp [flushList]
  | cons e rest ih =>
      simp only [flushList]
      rw [ih]
      by_cases hen : e.1 = n
      · rw [List.filter_cons_of_pos (by simpa using hen)]
        rcases hl : (rest.filter fun e => decide (e.1 = n)).getLast? with _ | el
        · have : rest.filter (fun e => decide (e.1 = n)) = [] :=
            List.getLast?_eq_none_iff.mp hl
          simp [this, mapGet_mapSet, hen]
        · have hne : rest.filter (fun e => decide (e.1 = n)) ≠ [] := by
            intro hnil
            rw [hnil] at hl
            simp at hl
          obtain ⟨fh, ft, hft⟩ := List.exists_cons_of_ne_nil hne
          rw [hft, List.getLast?_cons_cons]
          rw [hft] at hl
          simp [hl]
      · rw [List.filter_cons_of_neg (by simpa using hen)]
        have : ¬ e.1 = n := hen
        simp [mapGet_mapSet, this]

theorem flushList_sensor_mono (q : Registry) (s : SchedulerState) (m : Nat)
    (h : m ∈ s.sensorObserved) : m ∈ (flushList s q).sensorObserved := by
  induction q generalizing s with
  | nil => exact h
  | cons e rest ih =>
      simp only [flushList]
      exact ih _ (mem_observeNode_of_mem _ _ _ h)

theorem flushList_sensor_of_mem (q : Registry) (e : Nat × NodeOptions)
    (h : e ∈ q) : ∀ s : SchedulerState, e.1 ∈ (flushList s q).sensorObserved := by
  induction q with
  | nil => simp at h
  | cons e0 rest ih =>
      intro s
      rcases List.mem_cons.mp h with h0 | h1
      · subst h0
        simp only [flushList]
        exact flushList_sensor_mono _ _ _ (mem_observeNode_self _ _)
      · simp only [flushList]
        exact ih h1 _

theorem flushList_sensor_nodup (q : Registry) (s : SchedulerState)
    (h : s.sensorObserved.Nodup) : (flushList s q).sensorObserved.Nodup := by
  induction q generalizing s with
  | nil => exact h
  | cons e rest ih =>
      simp only [flushList]
      exact ih _ (observeNode_nodup _ _ h)

theorem flushList_nodupKeys (q : Registry) (s : SchedulerState)
    (h : (s.observedNodes.map Prod.fst).Nodup) :
    ((flushList s q).observedNodes.map Prod.fst).Nodup := by
  induction q generalizing s with
  | nil => exact h
  | cons e rest ih =>
      simp only [flushList]
      exact ih _ (nodupKeys_mapSet _ _ _ h)

end VirtScroll

/-! ### Tick dispatcher lemmas -/

namespace VirtScroll

theorem runTick_tempNodes (es : List (Nat × Bool)) (s : SchedulerState) :
    (runTick s es).1.tempNodes = s.tempNodes := by
  induction es generalizing s with
  | nil => rfl
  | cons e rest ih =>
      simp only [runTick]
      rcases hget : mapGet s.observedNodes e.1 with _ | opts
      · exact ih s
      · by_cases hstop : (e.2 && opts.stopObservingOnceVisible) = true <;>
          simp [hstop, ih]

theorem runTick_observerLive (es : List (Nat × Bool)) (s : SchedulerState) :
    (runTick s es).1.observerLive = s.observerLive := by
  induction es generalizing s with
  | nil => rfl
  | cons e rest ih =>
      simp only [runTick]
      rcases hget : mapGet s.observedNodes e.1 with _ | opts
      · exact ih s
      · by_cases hstop : (e.2 && opts.stopObservingOnceVisible) = true <;>
          simp [hstop, ih]

theorem runTick_absent (es : List (Nat × Bool)) (s : SchedulerState) (h : Nat)
    (habs : mapGet s.observedNodes h = none) :
    mapGet (runTick s es).1.observedNodes h = none ∧
      ∀ e ∈ (runTick s es).2, e.1 ≠ h := by
  induction es generalizing s with
  | nil => exact ⟨habs, by simp [runTick]⟩
  | cons e rest ih =>
      simp only [runTick]
      rcases hget : mapGet s.observedNodes e.1 with _ | opts
      · exact ih s habs
      · have hne : e.1 ≠ h := by
          intro hcontra
          rw [hcontra, habs] at hget
          exact Option.noConfusion hget
        by_cases hstop : (e.2 && opts.stopObservingOnceVisible) = true
        · simp only [if_pos hstop]
          have habs1 : mapGet (mapDelete s.observedNodes e.1) h = none := by
            rw [mapGet_mapDelete_ne _ _ _ (Ne.symm hne)]
            exact habs
          obtain ⟨h1, h2⟩ := ih { s with
              sensorObserved :=
                if s.observerLive then s.sensorObserved.erase e.1 else s.sensorObserved,
              observedNodes := mapDelete s.observedNodes e.1 } habs1
          refine ⟨by simpa using h1, ?_⟩
          intro ev hev
          rcases List.mem_cons.mp (by simpa using hev) with h0 | h0
          · rw [h0]; exact hne
          · exact h2 ev h0
        · simp only [if_neg hstop]
          obtain ⟨h1, h2⟩ := ih _ habs
          refine ⟨by simpa using h1, ?_⟩
          intro ev hev
          rcases List.mem_cons.mp (by simpa using hev) with h0 | h0
          · rw [h0]; exact hne
          · exact h2 ev h0

theorem runTick_append (xs ys : List (Nat × Bool)) (s : SchedulerState) :
    runTick s (xs ++ ys) =
      ((runTick (runTick s xs).1 ys).1,
        (runTick s xs).2 ++ (runTick (runTick s xs).1 ys).2) := by
  induction xs generalizing s with
  | nil => simp [runTick]
  | cons e rest ih =>
      simp only [List.cons_append, runTick]
      rcases hget : mapGet s.observedNodes e.1 with _ | opts
      · exact ih s
      · by_cases hstop : (e.2 && opts.stopObservingOnceVisible) = true <;>
          simp [hstop, ih]

theorem runTicks_absent (ts : List (List (Nat × Bool))) (s : SchedulerState)
    (h : Nat) (habs : mapGet s.observedNodes h = none) :
    mapGet (runTicks s ts).1.observedNodes h = none ∧
      ∀ e ∈ (runTicks s ts).2, e.1 ≠ h := by
  induction ts generalizing s with
  | nil => exact ⟨habs, by simp [runTicks]⟩
  | cons t rest ih =>
      simp only [runTicks]
      obtain ⟨h1, h2⟩ := runTick_absent t s h habs
      obtain ⟨h3, h4⟩ := ih _ h1
      refine ⟨by simpa using h3, ?_⟩
      intro ev hev
      rcases List.mem_append.mp (by simpa using hev) with h0 | h0
      · exact h2 ev h0
      · exact h4 ev h0

/-! ### Root attach lemmas -/

theorem attachRoot_ok_props (rm : Option String) (style : ComputedStyle)
    (s s' : SchedulerState) (h : attachRoot rm style s = Except.ok s') :
    s'.observerLive = true ∧ s'.tempNodes = [] ∧
    (∀ e ∈ s.tempNodes, e.1 ∈ s'.sensorObserved) ∧
    (∀ n, mapGet s'.observedNodes n =
      match (s.tempNodes.filter fun e => decide (e.1 = n)).getLast? with
      | some e => some e.2
      | none => mapGet s.observedNodes n) := by
  rw [attachRoot] at h
  split at h
  · exact Except.noConfusion h
  · have hs : s' = (let s1 : SchedulerState :=
          { s with observerLive := true, sensorObserved := [] }
        let s2 := flushList s1 s1.tempNodes
        { s2 with tempNodes := [] }) := by
      injection h with h1
      exact h1.symm
    subst hs
    refine ⟨by simpa using flushList_observerLive s.tempNodes _, rfl, ?_, ?_⟩
    · intro e he
      simpa using flushList_sensor_of_mem s.tempNodes e he _
    · intro n
      simpa using flushList_mapGet s.tempNodes
        { s with observerLive := true, sensorObserved := [] } n

end VirtScroll

/-! ### Operation-level lemmas -/

namespace VirtScroll

theorem registerObserver_observerLive (s : SchedulerState) (node : Option Nat)
    (cb : Nat) (stop : Bool) :
    (registerObserver s node cb stop).observerLive = s.observerLive := by
  rcases node with _ | n
  · simp only [registerObserver]
    rcases findFirstByCallback s.observedNodes cb with _ | n <;> rfl
  · simp only [registerObserver]
    by_cases h1 : mapHas s.observedNodes n
    · simp [h1]
    · by_cases h2 : s.observerLive <;> simp [h1, h2]

theorem registerObserver_tempNodes_of_live (s : SchedulerState) (node : Option Nat)
    (cb : Nat) (stop : Bool) (hlive : s.observerLive = true) :
    (registerObserver s node cb stop).tempNodes = s.tempNodes := by
  rcases node with _ | n
  · simp only [registerObserver]
    rcases findFirstByCallback s.observedNodes cb with _ | n <;> rfl
  · simp only [registerObserver]
    by_cases h1 : mapHas s.observedNodes n
    · simp [h1]
    · simp [h1, hlive]

/-- The "queue empty while the sensor is live" invariant is preserved by
every operation. -/
theorem applyOp_queue_inv (s : SchedulerState) (op : SchedOp)
    (h : s.observerLive = true → s.tempNodes = []) :
    (applyOp s op).observerLive = true → (applyOp s op).tempNodes = [] := by
  rcases op with ⟨node, cb, stop⟩ | ⟨rm, style⟩ | _ | es
  · intro hlive
    rw [applyOp] at hlive ⊢
    rw [registerObserver_observerLive] at hlive
    rw [registerObserver_tempNodes_of_live s node cb stop hlive]
    exact h hlive
  · intro hlive
    rw [applyOp] at hlive ⊢
    rcases hatt : attachRoot rm style s with s1 | s1 <;> rw [hatt] at hlive
    · exact h hlive
    · exact (attachRoot_ok_props rm style s s1 hatt).2.1
  · intro hlive
    rw [applyOp] at hlive
    simp [detachRoot] at hlive
  · intro hlive
    rw [applyOp] at hlive ⊢
    by_cases hl : s.observerLive
    · rw [if_pos hl] at hlive ⊢
      rw [runTick_tempNodes]
      exact h (by rw [← runTick_observerLive es s]; exact hlive)
    · rw [if_neg hl] at hlive ⊢
      exact h hlive

theorem runOps_queue_inv (ops : List SchedOp) :
    ∀ s : SchedulerState, (s.observerLive = true → s.tempNodes = []) →
      ((ops.foldl applyOp s).observerLive = true → (ops.foldl applyOp s).tempNodes = []) := by
  induction ops with
  | nil => exact fun s h => h
  | cons op rest ih =>
      intro s h
      exact ih (applyOp s op) (applyOp_queue_inv s op h)

end VirtScroll

/-! ### Claim theorems -/

namespace VirtScroll

/-- Claim C6: a tick pair whose handle is not present in the registry at
dispatch time (after the preceding pairs of the tick have been processed)
is skipped entirely: removing it from the tick changes nothing — no
callback is invoked for it, no error is raised (the dispatcher is total),
and the resulting state, registry included, is unchanged by that pair. -/
theorem stale_pair_skipped (s : SchedulerState) (pre post : List (Nat × Bool))
    (n : Nat) (b : Bool)
    (habs : mapGet (runTick s pre).1.observedNodes n = none) :
    runTick s (pre ++ (n, b) :: post) = runTick s (pre ++ post) := by
  rw [runTick_append pre ((n, b) :: post) s, runTick_append pre post s]
  simp only [runTick, habs]

/-- Witness for C6: a registry holding only handle 1; a pair for the absent
handle 5 is dropped from the middle of a tick without any effect. -/
theorem stale_pair_skipped_witness :
    mapGet (runTick
        { observerLive := true, sensorObserved := [1],
          observedNodes := [(1, ⟨9, false⟩)], tempNodes := [] }
        [(1, false)]).1.observedNodes 5 = none ∧
    runTick
        { observerLive := true, sensorObserved := [1],
          observedNodes := [(1, ⟨9, false⟩)], tempNodes := [] }
        ([(1, false)] ++ (5, true) :: [(1, true)]) =
      runTick
        { observerLive := true, sensorObserved := [1],
          observedNodes := [(1, ⟨9, false⟩)], tempNodes := [] }
        ([(1, false)] ++ [(1, true)]) :=
  ⟨by decide,
   stale_pair_skipped
     { observerLive := true, sensorObserved := [1],
       observedNodes := [(1, ⟨9, false⟩)], tempNodes := [] }
     [(1, false)] [(1, true)] 5 true (by decide)⟩

/-- Claim C7: calling `registerObserver` with an absent (null) handle and a
callback removes exactly the first registry entry whose callback is
identical to it, in iteration (insertion) order, and no others — entries
before it (whose callbacks differ) and every entry after it, even entries
with the same callback identity later in the map or with structurally
similar but distinct callback identities, are retained. -/
theorem unregister_removes_first_match_only (s : SchedulerState)
    (l1 l2 : Registry) (n cb : Nat) (opts : NodeOptions) (stop2 : Bool)
    (hreg : s.observedNodes = l1 ++ (n, opts) :: l2)
    (hcb : opts.visibilityCallback = cb)
    (hl1 : ∀ e ∈ l1, e.2.visibilityCallback ≠ cb) :
    (registerObserver s none cb stop2).observedNodes = l1 ++ l2 ∧
    (registerObserver s none cb stop2).tempNodes = s.tempNodes ∧
    (registerObserver s none cb stop2).sensorObserved =
      (if s.observerLive then s.sensorObserved.erase n else s.sensorObserved) := by
  have hfind : findFirstByCallback s.observedNodes cb = some n := by
    rw [hreg]; exact findFirstByCallback_append_cons l1 l2 n cb opts hcb hl1
  have hrem : removeFirstByCallback s.observedNodes cb = l1 ++ l2 := by
    rw [hreg]; exact removeFirstByCallback_append_cons l1 l2 n cb opts hcb hl1
  simp only [registerObserver, hfind, hrem]
  simp

/-- Witness for C7: registry with callbacks 8, 9, 9 (two distinct targets
sharing callback identity 9 placed after one with callback 8); removing by
callback 9 deletes only the first 9-entry (handle 2). -/
theorem unregister_removes_first_match_only_witness :
    ({ observerLive := true, sensorObserved := [1, 2, 3],
       observedNodes := [(1, ⟨8, false⟩), (2, ⟨9, true⟩), (3, ⟨9, false⟩)],
       tempNodes := [] } : SchedulerState).observedNodes =
      [(1, ⟨8, false⟩)] ++ (2, (⟨9, true⟩ : NodeOptions)) :: [(3, ⟨9, false⟩)] ∧
    (registerObserver
        { observerLive := true, sensorObserved := [1, 2, 3],
          observedNodes := [(1, ⟨8, false⟩), (2, ⟨9, true⟩), (3, ⟨9, false⟩)],
          tempNodes := [] } none 9 false).observedNodes =
      [(1, ⟨8, false⟩)] ++ [(3, ⟨9, false⟩)] :=
  ⟨by decide,
   (unregister_removes_first_match_only
     { observerLive := true, sensorObserved := [1, 2, 3],
       observedNodes := [(1, ⟨8, false⟩), (2, ⟨9, true⟩), (3, ⟨9, false⟩)],
       tempNodes := [] }
     [(1, ⟨8, false⟩)] [(3, ⟨9, false⟩)] 2 9 ⟨9, true⟩ false (by decide)
     (by decide) (by decide)).1⟩

/-- Claim C10: calling `registerObserver` with an absent (null) handle and a
callback identical to no registered target's callback is a silent no-op:
the whole state — registry, pending queue, sensor — is returned unchanged,
and no error is raised (the function is total). -/
theorem unregister_no_match_noop (s : SchedulerState) (cb : Nat) (stop : Bool)
    (h : ∀ e ∈ s.observedNodes, e.2.visibilityCallback ≠ cb) :
    registerObserver s none cb stop = s := by
  simp only [registerObserver, findFirstByCallback_eq_none s.observedNodes cb h]

/-- Witness for C10: unregistering callback 7 when only callback 9 is
registered (and one entry is pending) changes nothing. -/
theorem unregister_no_match_noop_witness :
    (∀ e ∈ ({ observerLive := false, sensorObserved := [], observedNodes := [(1, ⟨9, false⟩)], tempNodes := [(2, ⟨4, true⟩)] } : SchedulerState).observedNodes, e.2.visibilityCallback ≠ 7) ∧
    registerObserver
        { observerLive := false, sensorObserved := [],
          observedNodes := [(1, ⟨9, false⟩)], tempNodes := [(2, ⟨4, true⟩)] }
        none 7 true =
      { observerLive := false, sensorObserved := [],
        observedNodes := [(1, ⟨9, false⟩)], tempNodes := [(2, ⟨4, true⟩)] } :=
  ⟨by decide,
   unregister_no_match_noop
     { observerLive := false, sensorObserved := [],
       observedNodes := [(1, ⟨9, false⟩)], tempNodes := [(2, ⟨4, true⟩)] }
     7 true (by decide)⟩

/-- Claim C3 (code bug): the initial-visibility check of
`useIntersectionObserver` is not idempotent per consumer. With
`initiallyVisibleElements = 1`, the first evaluation of the check block
(first render) returns `true` and decrements the counter to 0; re-running
the same block for the same consumer (a re-render, the ref now holding
`true`) falls into the `else` branch, which overwrites the ref with
`false` — the repeated evaluation does not return the first result,
although the counter is correctly not decremented again. -/
theorem initialVisibility_rerender_flips :
    evalClaim none 1 = (some true, 0) ∧
    evalClaim (evalClaim none 1).1 (evalClaim none 1).2 = (some false, 0) :=
  ⟨by decide, by decide⟩

end VirtScroll

namespace VirtScroll

/-- Claim C1: a target registered with `stopObservingOnceVisible = true`
whose handle receives an `isIntersecting = true` pair in a tick has its
callback invoked with `true` exactly once (the one-shot event appears in
the delivered events, showing the callback ran before the removal, and no
second true-event for the handle exists); the handle is absent from the
registry after the tick; and no pair of any subsequent tick referencing
the handle invokes a callback for it. -/
theorem oneShot_notified_then_retired (s : SchedulerState) (h cb : Nat)
    (es : List (Nat × Bool))
    (hnd : (s.observedNodes.map Prod.fst).Nodup)
    (hreg : mapGet s.observedNodes h = some ⟨cb, true⟩)
    (hpair : (h, true) ∈ es) :
    (runTick s es).2.filter (fun ev => decide (ev.1 = h) && ev.2.2) = [(h, cb, true)] ∧
    mapGet (runTick s es).1.observedNodes h = none ∧
    ∀ es2, ∀ ev ∈ (runTick (runTick s es).1 es2).2, ev.1 ≠ h := by
  have main :
      (runTick s es).2.filter (fun ev => decide (ev.1 = h) && ev.2.2) = [(h, cb, true)] ∧
      mapGet (runTick s es).1.observedNodes h = none := by
    induction es generalizing s with
    | nil => simp at hpair
    | cons e rest ih =>
        obtain ⟨n, b⟩ := e
        by_cases hnh : n = h
        · subst hnh
          cases b with
          | false =>
              have hpair' : (n, true) ∈ rest := by
                rcases List.mem_cons.mp hpair with h0 | h0
                · exact absurd h0 (by simp)
                · exact h0
              simp only [runTick, hreg]
              obtain ⟨ih1, ih2⟩ := ih s hnd hreg hpair'
              refine ⟨?_, by simpa using ih2⟩
              rw [List.filter_cons_of_neg (by simp)]
              simpa using ih1
          | true =>
              simp only [runTick, hreg]
              have habs : mapGet (mapDelete s.observedNodes n) n = none :=
                mapGet_mapDelete_self s.observedNodes n hnd
              obtain ⟨h1, h2⟩ := runTick_absent rest
                { s with
                    sensorObserved :=
                      if s.observerLive then s.sensorObserved.erase n else s.sensorObserved,
                    observedNodes := mapDelete s.observedNodes n } n habs
              refine ⟨?_, by simpa using h1⟩
              rw [List.filter_cons_of_pos (by simp)]
              have hrest : (runTick
                  { s with
                      sensorObserved :=
                        if s.observerLive then s.sensorObserved.erase n else s.sensorObserved,
                      observedNodes := mapDelete s.observedNodes n }
                  rest).2.filter (fun ev => decide (ev.1 = n) && ev.2.2) = [] := by
                rw [List.filter_eq_nil_iff]
                intro a ha
                simp [h2 a ha]
              simpa using congrArg (List.cons ((n : Nat), (cb : Nat), true)) hrest
        · have hpair' : (h, true) ∈ rest := by
            rcases List.mem_cons.mp hpair with h0 | h0
            · exfalso
              have hh : h = n := by simpa using congrArg Prod.fst h0
              exact hnh hh.symm
            · exact h0
          rcases hget : mapGet s.observedNodes n with _ | opts
          · simp only [runTick, hget]
            exact ih s hnd hreg hpair'
          · simp only [runTick, hget]
            by_cases hstop : (b && opts.stopObservingOnceVisible) = true
            · simp only [if_pos hstop]
              have hreg1 : mapGet (mapDelete s.observedNodes n) h = some ⟨cb, true⟩ := by
                rw [mapGet_mapDelete_ne _ _ _ (fun hh => hnh hh.symm)]
                exact hreg
              have hnd1 := nodupKeys_mapDelete s.observedNodes n hnd
              obtain ⟨ih1, ih2⟩ := ih
                { s with
                    sensorObserved :=
                      if s.observerLive then s.sensorObserved.erase n else s.sensorObserved,
                    observedNodes := mapDelete s.observedNodes n } hnd1 hreg1 hpair'
              refine ⟨?_, by simpa using ih2⟩
              rw [List.filter_cons_of_neg (by simp [hnh])]
              simpa using ih1
            · simp only [if_neg hstop]
              obtain ⟨ih1, ih2⟩ := ih s hnd hreg hpair'
              refine ⟨?_, by simpa using ih2⟩
              rw [List.filter_cons_of_neg (by simp [hnh])]
              simpa using ih1
  exact ⟨main.1, main.2, fun es2 => (runTick_absent es2 (runTick s es).1 h main.2).2⟩

/-- Witness for C1: handle 3 registered one-shot with callback 7; a tick
delivering (3,false),(3,true),(3,true) fires the callback with true exactly
once, removes the handle, and a following tick for handle 3 fires nothing. -/
theorem oneShot_notified_then_retired_witness :
    (([(3, ⟨7, true⟩)] : Registry).map Prod.fst).Nodup ∧
    mapGet [(3, ⟨7, true⟩)] 3 = some ⟨7, true⟩ ∧
    ((3, true) ∈ [((3 : Nat), false), (3, true), (3, true)]) ∧
    ((runTick { observerLive := true, sensorObserved := [3], observedNodes := [(3, ⟨7, true⟩)], tempNodes := [] } [(3, false), (3, true), (3, true)]).2.filter (fun ev => decide (ev.1 = 3) && ev.2.2) = [(3, 7, true)] ∧
     mapGet (runTick { observerLive := true, sensorObserved := [3], observedNodes := [(3, ⟨7, true⟩)], tempNodes := [] } [(3, false), (3, true), (3, true)]).1.observedNodes 3 = none ∧
     ∀ es2, ∀ ev ∈ (runTick (runTick { observerLive := true, sensorObserved := [3], observedNodes := [(3, ⟨7, true⟩)], tempNodes := [] } [(3, false), (3, true), (3, true)]).1 es2).2, ev.1 ≠ 3) :=
  ⟨by decide, by decide, by decide,
   oneShot_notified_then_retired
     { observerLive := true, sensorObserved := [3], observedNodes := [(3, ⟨7, true⟩)], tempNodes := [] }
     3 7 [(3, false), (3, true), (3, true)] (by decide) (by decide) (by decide)⟩

end VirtScroll

namespace VirtScroll

/-- Claim C4: attaching the root while the sensor is not yet constructed
constructs the sensor and flushes the pending queue: every queued target is
observed by the fresh sensor and moved into the registry, in FIFO
registration order (so for each handle the registry afterwards holds the
options of its last queued registration, and handles never queued keep
their previous registry binding), after which the pending queue is empty;
moreover, in every state reachable from the initial state by register /
attach / detach / tick operations, the pending queue is empty whenever the
sensor is live (hence each queue entry is flushed exactly once). -/
theorem pending_queue_flush_fifo_and_inv :
    (∀ (rm : Option String) (style : ComputedStyle) (s s' : SchedulerState),
        s.observerLive = false →
        attachRoot rm style s = Except.ok s' →
        s'.observerLive = true ∧ s'.tempNodes = [] ∧
        (∀ e ∈ s.tempNodes, e.1 ∈ s'.sensorObserved ∧ mapHas s'.observedNodes e.1 = true) ∧
        (∀ n, mapGet s'.observedNodes n =
          match (s.tempNodes.filter fun x => decide (x.1 = n)).getLast? with
          | some x => some x.2
          | none => mapGet s.observedNodes n)) ∧
    (∀ ops : List SchedOp, (runOps ops).observerLive = true → (runOps ops).tempNodes = []) := by
  constructor
  · intro rm style s s' _ hatt
    obtain ⟨h1, h2, h3, h4⟩ := attachRoot_ok_props rm style s s' hatt
    refine ⟨h1, h2, ?_, h4⟩
    intro e he
    refine ⟨h3 e he, ?_⟩
    have hmem : e ∈ s.tempNodes.filter (fun x => decide (x.1 = e.1)) :=
      List.mem_filter.mpr ⟨he, by simp⟩
    have hne : s.tempNodes.filter (fun x => decide (x.1 = e.1)) ≠ [] :=
      List.ne_nil_of_mem hmem
    rcases hl : (s.tempNodes.filter (fun x => decide (x.1 = e.1))).getLast? with _ | el
    · exact absurd (List.getLast?_eq_none_iff.mp hl) hne
    · have h5 := h4 e.1
      rw [hl] at h5
      simp [mapHas, h5]
  · intro ops
    exact runOps_queue_inv ops initState (fun _ => rfl)

/-- Witness for C4: three handles 1, 2, 3 registered while the sensor is
uninitialized are all observed and in the registry after attach, the queue
is empty, and a concrete operation trace ending live has an empty queue. -/
theorem pending_queue_flush_fifo_and_inv_witness :
    (({ observerLive := false, sensorObserved := [], observedNodes := [], tempNodes := [(1, ⟨4, false⟩), (2, ⟨5, true⟩), (3, ⟨6, false⟩)] } : SchedulerState).observerLive = false) ∧
    (attachRoot none ⟨"auto", "visible", "visible"⟩ { observerLive := false, sensorObserved := [], observedNodes := [], tempNodes := [(1, ⟨4, false⟩), (2, ⟨5, true⟩), (3, ⟨6, false⟩)] } =
      Except.ok { observerLive := true, sensorObserved := [1, 2, 3], observedNodes := [(1, ⟨4, false⟩), (2, ⟨5, true⟩), (3, ⟨6, false⟩)], tempNodes := [] }) ∧
    (({ observerLive := true, sensorObserved := [1, 2, 3], observedNodes := [(1, ⟨4, false⟩), (2, ⟨5, true⟩), (3, ⟨6, false⟩)], tempNodes := [] } : SchedulerState).observerLive = true ∧
     ({ observerLive := true, sensorObserved := [1, 2, 3], observedNodes := [(1, ⟨4, false⟩), (2, ⟨5, true⟩), (3, ⟨6, false⟩)], tempNodes := [] } : SchedulerState).tempNodes = []) ∧
    ((runOps [SchedOp.reg (some 1) 4 false, SchedOp.reg (some 2) 5 true, SchedOp.reg (some 3) 6 false, SchedOp.attach none ⟨"auto", "visible", "visible"⟩]).observerLive = true →
      (runOps [SchedOp.reg (some 1) 4 false, SchedOp.reg (some 2) 5 true, SchedOp.reg (some 3) 6 false, SchedOp.attach none ⟨"auto", "visible", "visible"⟩]).tempNodes = []) := by
  refine ⟨rfl, by rfl, ?_, ?_⟩
  · have h := (pending_queue_flush_fifo_and_inv.1 none ⟨"auto", "visible", "visible"⟩
      { observerLive := false, sensorObserved := [], observedNodes := [], tempNodes := [(1, ⟨4, false⟩), (2, ⟨5, true⟩), (3, ⟨6, false⟩)] }
      { observerLive := true, sensorObserved := [1, 2, 3], observedNodes := [(1, ⟨4, false⟩), (2, ⟨5, true⟩), (3, ⟨6, false⟩)], tempNodes := [] }
      rfl (by rfl))
    exact ⟨h.1, h.2.1⟩
  · exact pending_queue_flush_fifo_and_inv.2
      [SchedOp.reg (some 1) 4 false, SchedOp.reg (some 2) 5 true, SchedOp.reg (some 3) 6 false, SchedOp.attach none ⟨"auto", "visible", "visible"⟩]

end VirtScroll

namespace VirtScroll

/-- Claim C8: a fresh consumer's initial-visibility check returns `true`
and decrements the bootstrap counter iff the counter is currently
positive, and returns `false` leaving the counter unchanged at 0; with
`initiallyVisibleElements = 2` the first two fresh consumers receive
`true` (counter 2 to 1 to 0) and the third receives `false`; and a
consumer whose claim returned `false` still registers normally with the
sensor even when `stopObservingOnceVisible = true`. -/
theorem bootstrap_counter_spec :
    (∀ c : Nat,
        ((evalClaim none c).1 = some true ↔ 0 < c) ∧
        (0 < c → evalClaim none c = (some true, c - 1)) ∧
        (c = 0 → evalClaim none c = (some false, c))) ∧
    (evalClaim none 2 = (some true, 1) ∧ evalClaim none 1 = (some true, 0) ∧
      evalClaim none 0 = (some false, 0)) ∧
    (∀ (s : SchedulerState) (n cb : Nat), s.observerLive = true →
        mapHas s.observedNodes n = false →
        mapGet (observeRef (some false) true s (some n) cb).observedNodes n =
          some ⟨cb, true⟩) := by
  refine ⟨?_, ⟨by decide, by decide, by decide⟩, ?_⟩
  · intro c
    by_cases hc : 0 < c
    · exact ⟨by simp [evalClaim, hc], by simp [evalClaim, hc],
        fun h0 => absurd h0 (by omega)⟩
    · have hc0 : c = 0 := by omega
      subst hc0
      simp [evalClaim]
  · intro s n cb hlive hhas
    have hfalse : ¬((some false : Option Bool) = some true ∧ true = true) := by simp
    rw [observeRef, if_neg hfalse]
    simp [registerObserver, hhas, hlive, mapGet_mapSet]

/-- Witness for C8: counters 2, 1, 0 produce true, true, false; a consumer
with a false claim and one-shot mode inserts handle 4 with callback 9 into
a live scheduler's registry. -/
theorem bootstrap_counter_spec_witness :
    ((evalClaim none 2).1 = some true ↔ 0 < 2) ∧
    (evalClaim none 2 = (some true, 1) ∧ evalClaim none 1 = (some true, 0) ∧
      evalClaim none 0 = (some false, 0)) ∧
    (({ observerLive := true, sensorObserved := [], observedNodes := [], tempNodes := [] } : SchedulerState).observerLive = true ∧
      mapHas ({ observerLive := true, sensorObserved := [], observedNodes := [], tempNodes := [] } : SchedulerState).observedNodes 4 = false ∧
      mapGet (observeRef (some false) true { observerLive := true, sensorObserved := [], observedNodes := [], tempNodes := [] } (some 4) 9).observedNodes 4 = some ⟨9, true⟩) :=
  ⟨(bootstrap_counter_spec.1 2).1, bootstrap_counter_spec.2.1,
   ⟨rfl, by decide,
    bootstrap_counter_spec.2.2
      { observerLive := true, sensorObserved := [], observedNodes := [], tempNodes := [] }
      4 9 rfl (by decide)⟩⟩

/-- Claim C9: at root-attach time, if the configured root margin contains
a positive offset (some space-separated token of the margin string parses
to a number greater than 0) and the root's computed style has none of
`overflow`, `overflowY`, `overflowX` equal to `"auto"`, a configuration
error is raised synchronously and the scheduler state is unchanged (the
sensor is not constructed); otherwise the attach succeeds and the sensor
is live. Concretely, `"1000px 0px"` counts as a positive margin and
`"0px 0px"` does not. -/
theorem attach_margin_overflow_validation :
    (∀ (rm : Option String) (style : ComputedStyle) (s : SchedulerState),
        hasPositiveMarginValue rm = true →
        style.overflow ≠ "auto" → style.overflowY ≠ "auto" → style.overflowX ≠ "auto" →
        (∃ msg, attachRoot rm style s = Except.error msg) ∧
        applyOp s (SchedOp.attach rm style) = s) ∧
    (∀ (rm : Option String) (style : ComputedStyle) (s : SchedulerState),
        (hasPositiveMarginValue rm = false ∨ style.overflow = "auto" ∨
          style.overflowY = "auto" ∨ style.overflowX = "auto") →
        ∃ s', attachRoot rm style s = Except.ok s' ∧ s'.observerLive = true) ∧
    hasPositiveMarginValue (some "1000px 0px") = true ∧
    hasPositiveMarginValue (some "0px 0px") = false ∧
    parseFloat "1000px" = some 1000 := by
  refine ⟨?_, ?_, by decide, by decide, by decide⟩
  · intro rm style s h1 h2 h3 h4
    have herr : attachRoot rm style s = Except.error
        "The root element should have CSS overflow: auto for positive rootMargin values to work correctly." := by
      rw [attachRoot, if_pos ⟨by simp [h1], h2, h3, h4⟩]
    refine ⟨⟨_, herr⟩, ?_⟩
    rw [applyOp, herr]
  · intro rm style s hor
    have hcond : ¬((hasPositiveMarginValue rm : Prop) ∧ style.overflow ≠ "auto" ∧
        style.overflowY ≠ "auto" ∧ style.overflowX ≠ "auto") := by
      rcases hor with h | h | h | h
      · simp [h]
      · exact fun hc => hc.2.1 h
      · exact fun hc => hc.2.2.1 h
      · exact fun hc => hc.2.2.2 h
    rw [attachRoot, if_neg hcond]
    refine ⟨_, rfl, ?_⟩
    simpa using flushList_observerLive s.tempNodes
      { s with observerLive := true, sensorObserved := [] }

/-- Witness for C9: attaching with margin `"1000px 0px"` and a
non-scrollable root fails and leaves the state unchanged; attaching the
same margin with `overflow: auto` succeeds. -/
theorem attach_margin_overflow_validation_witness :
    (hasPositiveMarginValue (some "1000px 0px") = true ∧
      ("visible" : String) ≠ "auto" ∧
      ((∃ msg, attachRoot (some "1000px 0px") ⟨"visible", "visible", "visible"⟩ initState = Except.error msg) ∧
        applyOp initState (SchedOp.attach (some "1000px 0px") ⟨"visible", "visible", "visible"⟩) = initState)) ∧
    (∃ s', attachRoot (some "1000px 0px") ⟨"auto", "visible", "visible"⟩ initState = Except.ok s' ∧ s'.observerLive = true) :=
  ⟨⟨by decide, by decide,
    attach_margin_overflow_validation.1 (some "1000px 0px")
      ⟨"visible", "visible", "visible"⟩ initState (by decide)
      (by decide) (by decide) (by decide)⟩,
   attach_margin_overflow_validation.2.1 (some "1000px 0px")
     ⟨"auto", "visible", "visible"⟩ initState (Or.inr (Or.inl rfl))⟩

end VirtScroll

namespace VirtScroll

theorem filter_key_eq_nil_of_mapGet_none (m : Registry) (n : Nat)
    (h : mapGet m n = none) : m.filter (fun e => decide (e.1 = n)) = [] := by
  rw [List.filter_eq_nil_iff]
  intro e he hdec
  have hk : e.1 = n := by simpa using hdec
  have : n ∈ m.map Prod.fst := hk ▸ List.mem_map_of_mem Prod.fst he
  exact (mapGet_eq_none_iff m n).mp h this

theorem attachRoot_ok_eq (rm : Option String) (style : ComputedStyle)
    (s s' : SchedulerState) (h : attachRoot rm style s = Except.ok s') :
    s' = { flushList { s with observerLive := true, sensorObserved := [] }
             s.tempNodes with tempNodes := [] } := by
  rw [attachRoot] at h
  split at h
  · exact Except.noConfusion h
  · injection h with h1
    exact h1.symm

theorem mapGet_of_mapHas_false (m : Registry) (n : Nat)
    (h : mapHas m n = false) : mapGet m n = none := by
  rcases hg : mapGet m n with _ | v
  · rfl
  · rw [mapHas, hg] at h
    simp at h

/-- Counterexample for C2: while the sensor is not yet constructed, the
duplicate check consults only the registry, not the pending queue —
registering handle 5 twice before any tick leaves TWO entries in the
pending queue, contradicting the claimed "at most one pending-queue
entry". -/
theorem duplicate_pending_registration_cex :
    ¬ ((registerObserver (registerObserver initState (some 5) 1 false)
          (some 5) 2 false).tempNodes.length ≤ 1) := by
  decide

/-- Claim C2 (amended): registering the same handle twice while the sensor
is live is a no-op on the second call, leaving exactly one registry entry
and exactly one sensor subscription for the handle. While the sensor is
not yet constructed the second registration is NOT deduplicated: the
pending queue receives a second entry for the handle; still, after the
root attaches and the queue is flushed, the registry holds exactly one
entry for the handle (the later registration's options win) and the fresh
sensor holds exactly one subscription for it. -/
theorem duplicate_registration_dedup :
    (∀ (s : SchedulerState) (n cb cb2 : Nat) (st st2 : Bool),
        s.observerLive = true → mapHas s.observedNodes n = false →
        n ∉ s.sensorObserved →
        registerObserver (registerObserver s (some n) cb st) (some n) cb2 st2 =
          registerObserver s (some n) cb st ∧
        ((registerObserver s (some n) cb st).observedNodes.filter
            (fun e => decide (e.1 = n))).length = 1 ∧
        (registerObserver s (some n) cb st).sensorObserved.count n = 1) ∧
    (∀ (s : SchedulerState) (n cb cb2 : Nat) (st st2 : Bool) (style : ComputedStyle),
        s.observerLive = false → mapHas s.observedNodes n = false →
        (s.observedNodes.map Prod.fst).Nodup →
        (∀ e ∈ s.tempNodes, e.1 ≠ n) →
        (registerObserver (registerObserver s (some n) cb st) (some n) cb2 st2).tempNodes =
          s.tempNodes ++ [(n, ⟨cb, st⟩), (n, ⟨cb2, st2⟩)] ∧
        ∀ s3, attachRoot none style
            (registerObserver (registerObserver s (some n) cb st) (some n) cb2 st2) =
            Except.ok s3 →
          (s3.observedNodes.filter (fun e => decide (e.1 = n))).length = 1 ∧
          s3.sensorObserved.count n = 1) := by
  constructor
  · intro s n cb cb2 st st2 hlive hhas hns
    have hget : mapGet s.observedNodes n = none := mapGet_of_mapHas_false _ _ hhas
    have hs1 : registerObserver s (some n) cb st =
        { s with sensorObserved := observeNode s.sensorObserved n,
                 observedNodes := mapSet s.observedNodes n ⟨cb, st⟩ } := by
      rw [registerObserver]
      rw [if_neg (by simp [hhas]), if_pos hlive]
    refine ⟨?_, ?_, ?_⟩
    · rw [hs1, registerObserver]
      rw [if_pos ?_]
      simp only [mapHas, mapGet_mapSet]
      simp
    · rw [hs1]
      show ((mapSet s.observedNodes n ⟨cb, st⟩).filter (fun e => decide (e.1 = n))).length = 1
      rw [mapSet_of_not_has _ _ _ hget, List.filter_append,
        filter_key_eq_nil_of_mapGet_none _ _ hget]
      simp
    · rw [hs1]
      show (observeNode s.sensorObserved n).count n = 1
      exact count_observeNode_self _ _ hns
  · intro s n cb cb2 st st2 style hnl hhas hnd htmp
    have hs1 : registerObserver s (some n) cb st =
        { s with tempNodes := s.tempNodes ++ [(n, ⟨cb, st⟩)] } := by
      rw [registerObserver]
      rw [if_neg (by simp [hhas]), if_neg (by simp [hnl])]
    have hs2 : registerObserver (registerObserver s (some n) cb st) (some n) cb2 st2 =
        { s with tempNodes := s.tempNodes ++ [(n, ⟨cb, st⟩), (n, ⟨cb2, st2⟩)] } := by
      rw [hs1, registerObserver]
      rw [if_neg (by simp [hhas]), if_neg (by simp [hnl])]
      simp
    refine ⟨by rw [hs2], ?_⟩
    intro s3 hatt
    rw [hs2] at hatt
    have hs3 := attachRoot_ok_eq none style _ s3 hatt
    have hqfil : ((s.tempNodes ++ [(n, (⟨cb, st⟩ : NodeOptions)), (n, ⟨cb2, st2⟩)]).filter
        (fun e => decide (e.1 = n))) = [(n, ⟨cb, st⟩), (n, ⟨cb2, st2⟩)] := by
      rw [List.filter_append]
      have h0 : s.tempNodes.filter (fun e => decide (e.1 = n)) = [] := by
        rw [List.filter_eq_nil_iff]
        intro e he hdec
        exact htmp e he (by simpa using hdec)
      rw [h0]
      simp
    have hget3 : mapGet s3.observedNodes n = some ⟨cb2, st2⟩ := by
      rw [hs3]
      have := flushList_mapGet (s.tempNodes ++ [(n, (⟨cb, st⟩ : NodeOptions)), (n, ⟨cb2, st2⟩)])
        { s with observerLive := true, sensorObserved := [],
                 tempNodes := s.tempNodes ++ [(n, ⟨cb, st⟩), (n, ⟨cb2, st2⟩)] } n
      simp only [hqfil] at this
      simpa using this
    have hnd3 : (s3.observedNodes.map Prod.fst).Nodup := by
      rw [hs3]
      exact flushList_nodupKeys _ _ (by simpa using hnd)
    constructor
    · rw [filter_key_of_mapGet s3.observedNodes n ⟨cb2, st2⟩ hnd3 hget3]
      rfl
    · have hmem : n ∈ s3.sensorObserved := by
        rw [hs3]
        exact flushList_sensor_of_mem _ (n, ⟨cb, st⟩) (by simp) _
      have hnodup : s3.sensorObserved.Nodup := by
        rw [hs3]
        exact flushList_sensor_nodup _ _ (by simp)
      exact List.count_eq_one_of_mem hnodup hmem

/-- Witness for C2 (amended): live case at a fresh live scheduler with
handle 6; pending case at the initial state with handle 5 registered twice
then attached. -/
theorem duplicate_registration_dedup_witness :
    (({ observerLive := true, sensorObserved := [], observedNodes := [], tempNodes := [] } : SchedulerState).observerLive = true ∧
     registerObserver (registerObserver { observerLive := true, sensorObserved := [], observedNodes := [], tempNodes := [] } (some 6) 1 false) (some 6) 2 true =
       registerObserver { observerLive := true, sensorObserved := [], observedNodes := [], tempNodes := [] } (some 6) 1 false) ∧
    ((registerObserver (registerObserver initState (some 5) 1 false) (some 5) 2 true).tempNodes =
       [] ++ [(5, ⟨1, false⟩), (5, ⟨2, true⟩)] ∧
     ∀ s3, attachRoot none ⟨"auto", "visible", "visible"⟩
         (registerObserver (registerObserver initState (some 5) 1 false) (some 5) 2 true) =
         Except.ok s3 →
       (s3.observedNodes.filter (fun e => decide (e.1 = 5))).length = 1 ∧
       s3.sensorObserved.count 5 = 1) :=
  ⟨⟨rfl, (duplicate_registration_dedup.1
      { observerLive := true, sensorObserved := [], observedNodes := [], tempNodes := [] }
      6 1 2 false true rfl (by decide) (by decide)).1⟩,
   duplicate_registration_dedup.2 initState 5 1 2 false true
     ⟨"auto", "visible", "visible"⟩ rfl (by decide) (by decide) (by decide)⟩

end VirtScroll

namespace VirtScroll

/-- Counterexample for C5: a target (handle 3, callback 7) registered while
the sensor is not yet constructed sits in the pending queue; the
absent-handle unregister path scans only the registry, so it removes
nothing, and after the root attaches the flushed target still receives its
callback — the claimed "prevents all future callback delivery for every
way the target was registered" is false for pending-queue targets. -/
theorem unregister_pending_not_removed_cex :
    (runTick (applyOp
        (registerObserver (registerObserver initState (some 3) 7 false) none 7 false)
        (SchedOp.attach none ⟨"auto", "visible", "visible"⟩)) [(3, true)]).2 =
      [(3, 7, true)] ∧
    ¬ (∀ ev ∈ (runTick (applyOp
        (registerObserver (registerObserver initState (some 3) 7 false) none 7 false)
        (SchedOp.attach none ⟨"auto", "visible", "visible"⟩)) [(3, true)]).2,
        ev.1 ≠ 3) :=
  ⟨by decide, by decide⟩

/-- Claim C5 (amended): for a target that is present in the registry
(whether it got there through a live sensor or by being flushed from the
pending queue at attach time), and whose callback is the first match in
iteration order, unregistration via the absent-handle path synchronously
removes it and prevents all future callback delivery for its handle: the
handle resolves to absent afterwards, and no event of any subsequent
sequence of ticks references it. A target still sitting in the pending
queue is not covered: the absent-handle path does not touch the queue. -/
theorem unregister_registered_prevents_delivery (s : SchedulerState)
    (l1 l2 : Registry) (h cb : Nat) (opts : NodeOptions) (stop2 : Bool)
    (hreg : s.observedNodes = l1 ++ (h, opts) :: l2)
    (hcb : opts.visibilityCallback = cb)
    (hl1 : ∀ e ∈ l1, e.2.visibilityCallback ≠ cb)
    (hkey : h ∉ (l1 ++ l2).map Prod.fst) :
    mapGet (registerObserver s none cb stop2).observedNodes h = none ∧
    ∀ ts, ∀ ev ∈ (runTicks (registerObserver s none cb stop2) ts).2, ev.1 ≠ h := by
  have hfind : findFirstByCallback s.observedNodes cb = some h := by
    rw [hreg]; exact findFirstByCallback_append_cons l1 l2 h cb opts hcb hl1
  have hrem : removeFirstByCallback s.observedNodes cb = l1 ++ l2 := by
    rw [hreg]; exact removeFirstByCallback_append_cons l1 l2 h cb opts hcb hl1
  have habs : mapGet (registerObserver s none cb stop2).observedNodes h = none := by
    simp only [registerObserver, hfind, hrem]
    exact (mapGet_eq_none_iff _ _).mpr hkey
  exact ⟨habs, fun ts => (runTicks_absent ts _ h habs).2⟩

/-- Witness for C5 (amended): handle 3 with callback 7 live in the
registry; unregistering by callback removes it and a subsequent tick
marking 3 as intersecting delivers nothing for it. -/
theorem unregister_registered_prevents_delivery_witness :
    (({ observerLive := true, sensorObserved := [3], observedNodes := [(3, ⟨7, false⟩)], tempNodes := [] } : SchedulerState).observedNodes =
      [] ++ (3, (⟨7, false⟩ : NodeOptions)) :: []) ∧
    (mapGet (registerObserver { observerLive := true, sensorObserved := [3], observedNodes := [(3, ⟨7, false⟩)], tempNodes := [] } none 7 false).observedNodes 3 = none ∧
     ∀ ts, ∀ ev ∈ (runTicks (registerObserver { observerLive := true, sensorObserved := [3], observedNodes := [(3, ⟨7, false⟩)], tempNodes := [] } none 7 false) ts).2, ev.1 ≠ 3) :=
  ⟨by decide,
   unregister_registered_prevents_delivery
     { observerLive := true, sensorObserved := [3], observedNodes := [(3, ⟨7, false⟩)], tempNodes := [] }
     [] [] 3 7 ⟨7, false⟩ false (by decide) (by decide) (by decide) (by decide)⟩

end VirtScroll
